import Mathlib

/-!
Verification of the BOSH cloud-config network-section generator (netgen.py).

Shallow embedding notes:
* IPv4 addresses are natural numbers (netaddr.IPAddress compares and sorts
  numerically); rendering `str(addr)` is the dotted-quad text.
* `netaddr.IPNetwork(text)` is external library code; it is modelled by the
  parsed record `IPNetwork` holding the `.first` and `.last` integer of the
  CIDR block.  `iter_hosts` enumerates the addresses strictly between them
  in ascending order, as netaddr does for ordinary (maskbits at most 30)
  IPv4 networks.
* Python exceptions become `Except PyError`; `IndexError` (list index out of
  range / pop from empty list) and `ValueError` (list.remove of a missing
  element) are nullary constructors because the propagated Python messages
  carry no data about the netgen entities involved.
* The mutable per-subnet dict is the record `PreparedSubnet`; in-place pool
  mutation becomes explicit state threading (the updated record is returned
  alongside each result).
-/

/-- Python exceptions that netgen.py can raise while allocating. -/
inductive PyError where
  | indexError
  | valueError
deriving DecidableEq

/-- Dotted-quad rendering of an IPv4 address, as `str(netaddr.IPAddress(n))`. -/
def ipToString (n : Nat) : String :=
  toString (n / 16777216 % 256) ++ "." ++ toString (n / 65536 % 256) ++ "."
    ++ toString (n / 256 % 256) ++ "." ++ toString (n % 256)

/-- Model of a parsed `netaddr.IPNetwork`: the integer value of the first
(network) and last (broadcast) address of the CIDR block. -/
structure IPNetwork where
  first : Nat
  last : Nat
deriving DecidableEq

/-- Model of `IPNetwork.iter_hosts()`: every address of the block except the
network and broadcast addresses, in ascending order. -/
def IPNetwork.iter_hosts (net : IPNetwork) : List Nat :=
  (List.range (net.last - net.first - 1)).map (fun i => net.first + 1 + i)

/-- One entry of the input `subnets:` list.  `range` is the raw CIDR text and
`ipnet` the result of parsing it with `netaddr.IPNetwork`; `gateway` is the
parsed optional gateway address; `reserved` and `cloud_properties` are raw
optional input fields (kept verbatim; netgen.py never reads either). -/
structure SubnetSpec where
  azs : List String
  range : String
  ipnet : IPNetwork
  dns : List String
  gateway : Option Nat
  reserved : Option (List String)
  cloud_properties : Option String
deriving DecidableEq

/-- The subnet dict after `prepare_subnet_lists` ran over it: the original
fields plus the derived `gateway`, the mutable pool `list` (key `'list'`)
and the parsed network (key `'ip_network'`). -/
structure PreparedSubnet where
  azs : List String
  range : String
  dns : List String
  gateway : Nat
  list : List Nat
  ip_network : IPNetwork
  reserved : Option (List String)
  cloud_properties : Option String
deriving DecidableEq

/-- Body of the `prepare_subnet_lists` loop for one subnet (netgen.py lines
88-104): enumerate and sort the host addresses, then either pop the first
address as the gateway (when none is declared) or remove the declared
gateway from the pool (`list.remove`, raising `ValueError` when absent).
The declared `reserved` field is left untouched. -/
def prepare_subnet (subnet : SubnetSpec) : Except PyError PreparedSubnet :=
  let ip_list := subnet.ipnet.iter_hosts.insertionSort (· ≤ ·)
  match subnet.gateway with
  | none =>
    match ip_list with
    | [] => .error .indexError
    | subnet_gateway :: rest =>
      .ok ⟨subnet.azs, subnet.range, subnet.dns, subnet_gateway, rest,
           subnet.ipnet, subnet.reserved, subnet.cloud_properties⟩
  | some g =>
    if g ∈ ip_list then
      .ok ⟨subnet.azs, subnet.range, subnet.dns, g, ip_list.erase g,
           subnet.ipnet, subnet.reserved, subnet.cloud_properties⟩
    else
      .error .valueError

/-- `prepare_subnet_lists` over the whole `subnets:` list; any exception
aborts the whole loop. -/
def prepare_subnet_lists : List SubnetSpec → Except PyError (List PreparedSubnet)
  | [] => .ok []
  | s :: rest => do
    let p ← prepare_subnet s
    let ps ← prepare_subnet_lists rest
    .ok (p :: ps)

/-- `pull_out_addresses(ip_list, net_size)` (netgen.py lines 107-111): pop
`net_size` addresses off the front of the pool, raising `IndexError` when
the pool empties first.  Returns the popped addresses together with the
remaining pool (the in-place mutation of `ip_list`). -/
def pull_out_addresses : Nat → List Nat → Except PyError (List Nat × List Nat)
  | 0, ip_list => .ok ([], ip_list)
  | _ + 1, [] => .error .indexError
  | n + 1, a :: rest =>
    match pull_out_addresses n rest with
    | .error e => .error e
    | .ok (address_list, remaining) => .ok (a :: address_list, remaining)

/-- `format_subnet_range` (netgen.py lines 114-120). -/
def format_subnet_range (start_address end_address : Nat) : String :=
  if start_address = end_address then
    ipToString start_address
  else if start_address < end_address then
    ipToString start_address ++ " - " ++ ipToString end_address
  else
    ipToString end_address ++ " - " ++ ipToString start_address

/-- The output `Subnet` object (netgen.py lines 76-83): exactly the six
attributes set by its constructor. -/
structure Subnet where
  azs : List String
  range : String
  dns : List String
  reserved : List String
  gateway : String
  static : List String
deriving DecidableEq

/-- The keys of the serialized record of an output `Subnet`: `yaml.dump`
writes the object's attribute dictionary (keys sorted), and the constructor
sets exactly these six attributes whatever the input document held. -/
def Subnet.dump_keys (_s : Subnet) : List String :=
  ["azs", "dns", "gateway", "range", "reserved", "static"]

/-- Body of the `build_subnets` loop for one subnet (netgen.py lines
125-154): pop `net_size` addresses, take `addresses[0]` and `addresses[-1]`
(IndexError on an empty pop result), compute the two gap ranges against the
full network bounds, compute the static range from `addresses[0]` to
`addresses[net_static-1]` when `net_static > 0`, and assemble the output
`Subnet` plus the mutated pool. -/
def build_subnet (x : PreparedSubnet) (net_size net_static : Nat) :
    Except PyError (Subnet × PreparedSubnet) :=
  match pull_out_addresses net_size x.list with
  | .error e => .error e
  | .ok (addresses, remaining) =>
    match addresses.head? with
    | none => .error .indexError
    | some first_address =>
      match addresses.getLast? with
      | none => .error .indexError
      | some last_address =>
        let first_in_network := x.ip_network.first
        let last_in_network := x.ip_network.last
        let subnet_reserved :=
          (if first_in_network < first_address then
            [format_subnet_range first_in_network (first_address - 1)]
          else []) ++
          (if last_in_network > last_address then
            [format_subnet_range (last_address + 1) last_in_network]
          else [])
        if 0 < net_static then
          match addresses.get? (net_static - 1) with
          | none => .error .indexError
          | some last_static =>
            .ok (⟨x.azs, x.range, x.dns, subnet_reserved, ipToString x.gateway,
                  [format_subnet_range first_address last_static]⟩,
                 { x with list := remaining })
        else
          .ok (⟨x.azs, x.range, x.dns, subnet_reserved, ipToString x.gateway, []⟩,
               { x with list := remaining })

/-- `build_subnets` (netgen.py lines 123-155) over the whole subnet list,
threading each subnet's mutated pool. -/
def build_subnets : List PreparedSubnet → Nat → Nat →
    Except PyError (List Subnet × List PreparedSubnet)
  | [], _, _ => .ok ([], [])
  | x :: rest, net_size, net_static =>
    match build_subnet x net_size net_static with
    | .error e => .error e
    | .ok (s, x') =>
      match build_subnets rest net_size net_static with
      | .error e => .error e
      | .ok (ss, rest') => .ok (s :: ss, x' :: rest')

/-- One entry of the input `networks:` list. -/
structure NetworkRequest where
  name : String
  type : Option String
  size : Nat
  static : Nat
deriving DecidableEq

/-- The output `Network` object (netgen.py lines 69-73). -/
structure Network where
  name : String
  type : String
  subnets : List Subnet
deriving DecidableEq

/-- `load_networks` (netgen.py lines 158-175): allocate every network
request in declaration order against the shared, progressively drawn-down
subnet pools. -/
def load_networks : List NetworkRequest → List PreparedSubnet →
    Except PyError (List Network × List PreparedSubnet)
  | [], subnets => .ok ([], subnets)
  | entry :: rest, subnets =>
    let net_type := entry.type.getD "manual"
    match build_subnets subnets entry.size entry.static with
    | .error e => .error e
    | .ok (net_subnets, subnets') =>
      match load_networks rest subnets' with
      | .error e => .error e
      | .ok (nets, subnets'') =>
        .ok (⟨entry.name, net_type, net_subnets⟩ :: nets, subnets'')

/-- The allocation pipeline of `main` (netgen.py lines 193-201): prepare the
subnet pools, then allocate all networks; `yaml.dump` runs only on an `ok`
result, so an error produces no output document at all. -/
def netgen (subnets : List SubnetSpec) (networks : List NetworkRequest) :
    Except PyError (List Network) :=
  match prepare_subnet_lists subnets with
  | .error e => .error e
  | .ok prepared =>
    match load_networks networks prepared with
    | .error e => .error e
    | .ok (nets, _) => .ok nets

/-- Numeric mirror of the reserved-gap computation of `build_subnet`: the
closed address intervals whose `format_subnet_range` renderings are appended
to the output `reserved` list (netgen.py lines 137-141). -/
def gap_intervals (first_in_network last_in_network first_address last_address : Nat) :
    List (Nat × Nat) :=
  (if first_in_network < first_address then
    [(first_in_network, first_address - 1)]
  else []) ++
  (if last_in_network > last_address then
    [(last_address + 1, last_in_network)]
  else [])

/-- Membership of an address in the union of a list of closed intervals. -/
def in_gap_list (gaps : List (Nat × Nat)) (a : Nat) : Prop :=
  ∃ g ∈ gaps, g.1 ≤ a ∧ a ≤ g.2

instance (gaps : List (Nat × Nat)) (a : Nat) : Decidable (in_gap_list gaps a) :=
  List.decidableBEx _ gaps

/-- The CIDR block 192.168.123.0/24 of the repository's worked sample:
first (network) address 3232267008 = 192.168.123.0, last (broadcast)
address 3232267263 = 192.168.123.255. -/
def sampleNet : IPNetwork := ⟨3232267008, 3232267263⟩

/-- The spec's reservation scenario: the sample subnet additionally declares
the pre-existing reservation 192.168.123.10 (= 3232267018). -/
def reservedSampleSpec : SubnetSpec :=
  ⟨["z1", "z2", "z3"], "192.168.123.0/24", sampleNet, ["192.168.5.1"], none,
   some ["192.168.123.10"], none⟩

/-- The sample subnet exactly as in the netgen.py docstring (no gateway, no
reservations, no cloud properties). -/
def plainSampleSpec : SubnetSpec :=
  ⟨["z1", "z2", "z3"], "192.168.123.0/24", sampleNet, ["192.168.5.1"], none,
   none, none⟩

/-- The sample subnet with a `cloud_properties` value supplied in the input
document. -/
def cloudPropSpec : SubnetSpec :=
  ⟨["z1", "z2", "z3"], "192.168.123.0/24", sampleNet, ["192.168.5.1"], none,
   none, some "vm_type: small"⟩

/-- A tiny 8-address block (addresses 0 to 7, hosts 1 to 6) used to
instantiate hypotheses of the general theorems on concrete data. -/
def smallNet : IPNetwork := ⟨0, 7⟩

/-- A subnet spec over `smallNet` with no declared gateway. -/
def smallSpec : SubnetSpec :=
  ⟨["z1"], "0.0.0.0/29", smallNet, ["8.8.8.8"], none, none, none⟩

/-- The result of preparing `smallSpec`: gateway 1 (the lowest host)
removed, pool 2 to 6. -/
def smallPrepared : PreparedSubnet :=
  ⟨["z1"], "0.0.0.0/29", ["8.8.8.8"], 1, [2, 3, 4, 5, 6], smallNet, none, none⟩

/-- `smallSpec` with the explicit gateway 3 (a pool member). -/
def gwSpec : SubnetSpec :=
  ⟨["z1"], "0.0.0.0/29", smallNet, ["8.8.8.8"], some 3, none, none⟩

/-- `smallSpec` with the explicit gateway 9, which is not a host of the
block. -/
def badGwSpec : SubnetSpec :=
  ⟨["z1"], "0.0.0.0/29", smallNet, ["8.8.8.8"], some 9, none, none⟩

/-- The output subnet of allocating a size-2, static-1 network from
`smallPrepared`. -/
def smallOut : Subnet :=
  ⟨["z1"], "0.0.0.0/29", ["8.8.8.8"],
   ["0.0.0.0 - 0.0.0.1", "0.0.0.4 - 0.0.0.7"], "0.0.0.1", ["0.0.0.2"]⟩

/-- The pool state after that size-2 allocation. -/
def smallPreparedAfter : PreparedSubnet :=
  ⟨["z1"], "0.0.0.0/29", ["8.8.8.8"], 1, [4, 5, 6], smallNet, none, none⟩

/-- The output subnet of allocating a size-4, static-3 network from
`smallPrepared`. -/
def smallOut4 : Subnet :=
  ⟨["z1"], "0.0.0.0/29", ["8.8.8.8"],
   ["0.0.0.0 - 0.0.0.1", "0.0.0.6 - 0.0.0.7"], "0.0.0.1", ["0.0.0.2 - 0.0.0.4"]⟩

/-- The pool state after that size-4 allocation. -/
def smallPreparedAfter4 : PreparedSubnet :=
  ⟨["z1"], "0.0.0.0/29", ["8.8.8.8"], 1, [6], smallNet, none, none⟩

/-- The output subnet of a second network (size 2, static 0) allocated
right after the size-2 one, drawing 4 and 5 from the drawn-down pool. -/
def smallOutB : Subnet :=
  ⟨["z1"], "0.0.0.0/29", ["8.8.8.8"],
   ["0.0.0.0 - 0.0.0.3", "0.0.0.6 - 0.0.0.7"], "0.0.0.1", []⟩

/-! ## Helper lemmas about the embedded operations -/

theorem pull_out_addresses_eq {l : List Nat} {n : Nat} (h : n ≤ l.length) :
    pull_out_addresses n l = .ok (l.take n, l.drop n) := by
  induction n generalizing l with
  | zero => rfl
  | succ m ih =>
    cases l with
    | nil => simp at h
    | cons a rest =>
      have hm : m ≤ rest.length := by simpa using h
      simp [pull_out_addresses, ih hm]

theorem pull_out_addresses_exhausted {l : List Nat} {n : Nat} (h : l.length < n) :
    pull_out_addresses n l = .error .indexError := by
  induction l generalizing n with
  | nil =>
    cases n with
    | zero => simp at h
    | succ m => rfl
  | cons a rest ih =>
    cases n with
    | zero => simp at h
    | succ m =>
      have hm : rest.length < m := by simpa using h
      simp [pull_out_addresses, ih hm]

theorem pull_out_addresses_ok_inv {l address_list remaining : List Nat} {n : Nat}
    (h : pull_out_addresses n l = .ok (address_list, remaining)) :
    n ≤ l.length ∧ address_list = l.take n ∧ remaining = l.drop n := by
  by_cases hle : n ≤ l.length
  · rw [pull_out_addresses_eq hle] at h
    simp only [Except.ok.injEq, Prod.mk.injEq] at h
    exact ⟨hle, h.1.symm, h.2.symm⟩
  · rw [pull_out_addresses_exhausted (by omega)] at h
    simp at h

theorem mem_iter_hosts {net : IPNetwork} {a : Nat} :
    a ∈ net.iter_hosts ↔ net.first < a ∧ a < net.last := by
  unfold IPNetwork.iter_hosts
  simp only [List.mem_map, List.mem_range]
  constructor
  · rintro ⟨i, hi, rfl⟩
    omega
  · rintro ⟨h1, h2⟩
    exact ⟨a - net.first - 1, by omega, by omega⟩

theorem iter_hosts_sorted (net : IPNetwork) :
    List.Pairwise (· < ·) net.iter_hosts := by
  unfold IPNetwork.iter_hosts
  refine List.pairwise_map.mpr ?_
  exact (List.sorted_lt_range _).imp (fun h => by omega)

theorem iter_hosts_insertionSort (net : IPNetwork) :
    net.iter_hosts.insertionSort (· ≤ ·) = net.iter_hosts :=
  List.Sorted.insertionSort_eq ((iter_hosts_sorted net).imp (fun h => Nat.le_of_lt h))

theorem head_le_of_pairwise_lt {l : List Nat} {h0 a : Nat}
    (hp : List.Pairwise (· < ·) l) (hh : l.head? = some h0) (ha : a ∈ l) :
    h0 ≤ a := by
  cases l with
  | nil => cases ha
  | cons b t =>
    simp only [List.head?_cons, Option.some.injEq] at hh
    subst hh
    rcases List.mem_cons.mp ha with rfl | hmem
    · exact le_rfl
    · exact le_of_lt ((List.pairwise_cons.mp hp).1 _ hmem)

theorem le_getLast_of_pairwise_lt :
    ∀ {l : List Nat} {m a : Nat}, List.Pairwise (· < ·) l →
      l.getLast? = some m → a ∈ l → a ≤ m := by
  intro l
  induction l with
  | nil => intro m a _ _ ha; cases ha
  | cons b t ih =>
    intro m a hp hm ha
    rcases List.mem_cons.mp ha with rfl | hmem
    · cases t with
      | nil =>
        simp only [List.getLast?_singleton, Option.some.injEq] at hm
        omega
      | cons c t' =>
        rw [List.getLast?_cons_cons] at hm
        obtain ⟨hne, rfl⟩ :=
          List.mem_getLast?_eq_getLast (show m ∈ (c :: t').getLast? from hm)
        exact le_of_lt ((List.pairwise_cons.mp hp).1 _ (List.getLast_mem hne))
    · cases t with
      | nil => cases hmem
      | cons c t' =>
        rw [List.getLast?_cons_cons] at hm
        exact ih (List.pairwise_cons.mp hp).2 hm hmem

theorem prepare_subnet_ok_fields {s : SubnetSpec} {p : PreparedSubnet}
    (h : prepare_subnet s = .ok p) :
    p.azs = s.azs ∧ p.range = s.range ∧ p.dns = s.dns ∧
    p.ip_network = s.ipnet ∧ p.reserved = s.reserved ∧
    p.cloud_properties = s.cloud_properties ∧
    (∀ g, s.gateway = some g → p.gateway = g) := by
  unfold prepare_subnet at h
  split at h
  · rename_i x hnone
    dsimp only at h
    split at h
    · simp at h
    · rename_i gw rest hl
      simp only [Except.ok.injEq] at h
      subst h
      simp [hnone]
  · rename_i x g hg
    dsimp only at h
    split at h
    · simp only [Except.ok.injEq] at h
      subst h
      simp [hg]
    · simp at h

theorem build_subnet_ok_parts {x : PreparedSubnet} {net_size net_static : Nat}
    {out : Subnet} {x' : PreparedSubnet}
    (h : build_subnet x net_size net_static = .ok (out, x')) :
    ∃ addresses first_address last_address,
      pull_out_addresses net_size x.list = .ok (addresses, x'.list) ∧
      addresses.head? = some first_address ∧
      addresses.getLast? = some last_address ∧
      x'.azs = x.azs ∧ x'.range = x.range ∧ x'.dns = x.dns ∧
      x'.gateway = x.gateway ∧ x'.ip_network = x.ip_network ∧
      x'.reserved = x.reserved ∧ x'.cloud_properties = x.cloud_properties ∧
      out.azs = x.azs ∧ out.range = x.range ∧ out.dns = x.dns ∧
      out.gateway = ipToString x.gateway ∧
      out.reserved =
        (if x.ip_network.first < first_address then
          [format_subnet_range x.ip_network.first (first_address - 1)]
        else []) ++
        (if x.ip_network.last > last_address then
          [format_subnet_range (last_address + 1) x.ip_network.last]
        else []) ∧
      (0 < net_static →
        ∃ last_static, addresses.get? (net_static - 1) = some last_static ∧
          out.static = [format_subnet_range first_address last_static]) ∧
      (net_static = 0 → out.static = []) := by
  unfold build_subnet at h
  split at h
  · simp at h
  · rename_i pr addresses remaining hp
    split at h
    · simp at h
    · rename_i first_address hh
      split at h
      · simp at h
      · rename_i last_address hl
        dsimp only at h
        split at h
        · rename_i hst
          split at h
          · simp at h
          · rename_i last_static hg
            simp only [Except.ok.injEq, Prod.mk.injEq] at h
            obtain ⟨hout, hx'⟩ := h
            subst hout
            subst hx'
            exact ⟨addresses, first_address, last_address, hp, hh, hl,
              rfl, rfl, rfl, rfl, rfl, rfl, rfl, rfl, rfl, rfl, rfl, rfl,
              fun _ => ⟨last_static, hg, rfl⟩, fun h0 => absurd h0 (by omega)⟩
        · rename_i hst
          simp only [Except.ok.injEq, Prod.mk.injEq] at h
          obtain ⟨hout, hx'⟩ := h
          subst hout
          subst hx'
          exact ⟨addresses, first_address, last_address, hp, hh, hl,
            rfl, rfl, rfl, rfl, rfl, rfl, rfl, rfl, rfl, rfl, rfl, rfl,
            fun h0 => absurd h0 hst, fun _ => rfl⟩

theorem load_networks_cons_ok {entry : NetworkRequest} {rest : List NetworkRequest}
    {subs : List PreparedSubnet} {nets : List Network} {ps : List PreparedSubnet}
    (h : load_networks (entry :: rest) subs = .ok (nets, ps)) :
    ∃ outs ps' nets',
      build_subnets subs entry.size entry.static = .ok (outs, ps') ∧
      load_networks rest ps' = .ok (nets', ps) ∧
      nets = ⟨entry.name, entry.type.getD "manual", outs⟩ :: nets' := by
  unfold load_networks at h
  dsimp only at h
  split at h
  · simp at h
  · rename_i pr outs ps' hb
    split at h
    · simp at h
    · rename_i pr2 nets' ps'' hl
      simp only [Except.ok.injEq, Prod.mk.injEq] at h
      obtain ⟨hnets, hps⟩ := h
      subst hnets
      subst hps
      exact ⟨outs, ps', nets', hb, hl, rfl⟩

theorem load_networks_nil_ok {subs : List PreparedSubnet} {nets : List Network}
    {ps : List PreparedSubnet} (h : load_networks [] subs = .ok (nets, ps)) :
    nets = [] ∧ ps = subs := by
  unfold load_networks at h
  simp only [Except.ok.injEq, Prod.mk.injEq] at h
  exact ⟨h.1.symm, h.2.symm⟩

theorem build_subnets_singleton_ok {p : PreparedSubnet} {net_size net_static : Nat}
    {outs : List Subnet} {ps' : List PreparedSubnet}
    (h : build_subnets [p] net_size net_static = .ok (outs, ps')) :
    ∃ out p', build_subnet p net_size net_static = .ok (out, p') ∧
      outs = [out] ∧ ps' = [p'] := by
  unfold build_subnets at h
  split at h
  · simp at h
  · rename_i pr out p' hb
    simp only [build_subnets, Except.ok.injEq, Prod.mk.injEq] at h
    obtain ⟨houts, hps⟩ := h
    subst houts
    subst hps
    exact ⟨out, p', hb, rfl, rfl⟩

set_option maxRecDepth 16000

/-! ## Claim theorems -/

/-- C7: `format_subnet_range` renders equal endpoints as the single address
(never an "X - X" range), and otherwise puts the numerically smaller
endpoint first whichever order the endpoints are passed in, so the
formatting is symmetric in its two arguments. -/
theorem format_subnet_range_normalized (a b : Nat) :
    format_subnet_range a b = format_subnet_range b a ∧
    format_subnet_range a b =
      (if a = b then ipToString a
       else ipToString (min a b) ++ " - " ++ ipToString (max a b)) := by
  rcases lt_trichotomy a b with h | h | h
  · have h1 : a ≠ b := Nat.ne_of_lt h
    have h2 : b ≠ a := Ne.symm h1
    have h3 : ¬ b < a := by omega
    constructor
    · simp [format_subnet_range, h1, h2, h, h3]
    · simp [format_subnet_range, h1, h, Nat.min_eq_left h.le, Nat.max_eq_right h.le]
  · subst h
    exact ⟨rfl, by simp [format_subnet_range]⟩
  · have h1 : a ≠ b := Ne.symm (Nat.ne_of_lt h)
    have h2 : b ≠ a := Nat.ne_of_lt h
    have h3 : ¬ a < b := by omega
    constructor
    · simp [format_subnet_range, h1, h2, h, h3]
    · simp [format_subnet_range, h1, h3, Nat.min_eq_right h.le, Nat.max_eq_left h.le]

/-- C10: a request of `size` 0 still fails even against a non-empty pool.
The pop loop itself succeeds and returns the empty list (together with the
untouched pool), but `addresses[0]` on that empty popped list then raises
IndexError, so the allocator is total only for `size` at least 1. -/
theorem size_zero_request_still_fails (x : PreparedSubnet) (net_static : Nat)
    (_hne : x.list ≠ []) :
    pull_out_addresses 0 x.list = .ok ([], x.list) ∧
    build_subnet x 0 net_static = .error .indexError := by
  exact ⟨rfl, rfl⟩

/-- C10 witness: the failure at `size` = 0 on the concrete non-empty small
pool. -/
theorem size_zero_request_still_fails_witness :
    smallPrepared.list ≠ [] ∧
    build_subnet smallPrepared 0 3 = .error .indexError :=
  ⟨by decide, (size_zero_request_still_fails smallPrepared 3 (by decide)).2⟩

/-- C1 counterexample: the subnet declares `reserved: ["192.168.123.10"]`,
yet after preparation the address 192.168.123.10 (= 3232267018) is still in
the pool, and a first network of size 9 receives it among its popped
addresses.  `prepare_subnet_lists` never reads the `reserved` field, so
pre-existing reservations are not removed from the pool. -/
theorem reserved_address_survives_preparation :
    ((prepare_subnet reservedSampleSpec).map
        (fun p => p.list.contains 3232267018)) = Except.ok true ∧
    ((prepare_subnet reservedSampleSpec).bind
        (fun p => (pull_out_addresses 9 p.list).map
          (fun r => r.1.contains 3232267018))) = Except.ok true := by
  exact ⟨rfl, rfl⟩

/-- C1 amended: subnet preparation ignores the declared `reserved` ranges
entirely.  The prepared pool, gateway and every other derived field are
identical whatever the `reserved` entry holds (it is only carried along
verbatim), so no address is removed for a pre-existing reservation and a
pre-reserved address can appear in a network's allocated block. -/
theorem prepare_subnet_ignores_reserved (s : SubnetSpec) (r : Option (List String)) :
    prepare_subnet { s with reserved := r } =
      (prepare_subnet s).map (fun p => { p with reserved := r }) := by
  unfold prepare_subnet
  cases hg : s.gateway with
  | none =>
    cases hl : s.ipnet.iter_hosts.insertionSort (· ≤ ·) with
    | nil => simp [hg, hl, Except.map]
    | cons gw rest => simp [hg, hl, Except.map]
  | some g =>
    by_cases hmem : g ∈ s.ipnet.iter_hosts.insertionSort (· ≤ ·)
    · simp [hg, hmem, Except.map]
    · simp [hg, hmem, Except.map]

/-- C4 counterexample: two exhausted runs that differ in network name,
type, requested size, static count and declared subnet fields produce the
very same error value (the model of Python's constant-message
`IndexError: pop from empty list`).  The abort therefore carries no
diagnostic identifying the network name, subnet range, requested size or
remaining count; the claimed identifying diagnostic does not exist. -/
theorem exhaustion_diagnostic_identifies_nothing :
    netgen [plainSampleSpec] [⟨"alpha", none, 300, 0⟩]
      = Except.error PyError.indexError ∧
    netgen [reservedSampleSpec] [⟨"beta", some "dynamic", 400, 7⟩]
      = Except.error PyError.indexError := by
  constructor
  · rfl
  · rfl

/-- C4 amended: when fewer than `size` addresses remain in the subnet's
pool, allocating the network aborts the run with the uncaught IndexError of
popping an empty list (and, the pipeline returning an error, no output
document is produced); the error value itself identifies nothing. -/
theorem pool_exhaustion_aborts_run (p : PreparedSubnet) (entry : NetworkRequest)
    (h : p.list.length < entry.size) :
    load_networks [entry] [p] = .error .indexError := by
  unfold load_networks build_subnets build_subnet
  rw [pull_out_addresses_exhausted h]

/-- C4 witness: a concrete exhausted request observed through the theorem. -/
theorem pool_exhaustion_aborts_run_witness :
    smallPrepared.list.length < 9 ∧
    load_networks [⟨"big", none, 9, 0⟩] [smallPrepared] = .error .indexError :=
  ⟨by decide, pool_exhaustion_aborts_run smallPrepared ⟨"big", none, 9, 0⟩ (by decide)⟩

/-- C2 counterexample: with `cloud_properties` present in the input subnet,
the emitted record still carries only the six constructor attributes — no
`cloud_properties` key — and the whole output is identical to the output
for the same input without `cloud_properties`.  The field is dropped, not
carried through, so it is not "included in the output record exactly when
present in the input". -/
theorem cloud_properties_never_emitted :
    (netgen [cloudPropSpec] [⟨"web", none, 2, 1⟩]).map
        (fun ns => ns.map (fun n => n.subnets.map Subnet.dump_keys)) =
      Except.ok [[["azs", "dns", "gateway", "range", "reserved", "static"]]] ∧
    netgen [cloudPropSpec] [⟨"web", none, 2, 1⟩] =
      netgen [{ cloudPropSpec with cloud_properties := none }] [⟨"web", none, 2, 1⟩] := by
  constructor
  · rfl
  · rfl

/-- C2 amended: every produced subnet record carries `azs`, `dns`, `range`
unchanged from the subnet spec and `gateway` as the rendered text of the
prepared gateway (the declared gateway when one was given); the
`cloud_properties` input field is never part of the output record, present
or not. -/
theorem build_subnet_carries_fields_through
    (s : SubnetSpec) (p : PreparedSubnet) (net_size net_static : Nat)
    (out : Subnet) (p' : PreparedSubnet)
    (hprep : prepare_subnet s = .ok p)
    (hbuild : build_subnet p net_size net_static = .ok (out, p')) :
    out.azs = s.azs ∧ out.dns = s.dns ∧ out.range = s.range ∧
    out.gateway = ipToString p.gateway ∧
    (∀ g, s.gateway = some g → out.gateway = ipToString g) ∧
    "cloud_properties" ∉ out.dump_keys := by
  obtain ⟨pa, pr, pd, _, _, _, pg⟩ := prepare_subnet_ok_fields hprep
  obtain ⟨addrs, fa, la, _, _, _, _, _, _, _, _, _, _, oaz, orn, odn, og, _, _, _⟩ :=
    build_subnet_ok_parts hbuild
  refine ⟨oaz.trans pa, odn.trans pd, orn.trans pr, og, ?_, ?_⟩
  · intro g hg
    rw [og, pg g hg]
  · simp [Subnet.dump_keys]

/-- C2 witness: the carry-through conclusions observed on the concrete
small run. -/
theorem build_subnet_carries_fields_through_witness :
    prepare_subnet smallSpec = .ok smallPrepared ∧
    build_subnet smallPrepared 2 1 = .ok (smallOut, smallPreparedAfter) ∧
    smallOut.azs = smallSpec.azs ∧ smallOut.dns = smallSpec.dns ∧
    smallOut.range = smallSpec.range ∧
    "cloud_properties" ∉ smallOut.dump_keys := by
  have h := build_subnet_carries_fields_through smallSpec smallPrepared 2 1
    smallOut smallPreparedAfter rfl rfl
  exact ⟨rfl, rfl, h.1, h.2.1, h.2.2.1, h.2.2.2.2.2⟩

/-- C5: gateway handling of subnet preparation.  Without a declared
gateway, the first (numerically lowest) address of the ascending host pool
becomes the gateway and is removed from the pool; with a declared gateway,
exactly that address is removed from the pool, and preparation fails with
the lookup error (`list.remove` raising ValueError) when the declared
gateway is not a host address in the pool. -/
theorem prepare_subnet_gateway_selection (s : SubnetSpec) (g : Nat) (rest : List Nat) :
    (s.gateway = none → s.ipnet.iter_hosts = g :: rest →
      prepare_subnet s = .ok ⟨s.azs, s.range, s.dns, g, rest, s.ipnet,
        s.reserved, s.cloud_properties⟩ ∧ (∀ a ∈ rest, g < a)) ∧
    (s.gateway = some g →
      (g ∈ s.ipnet.iter_hosts →
        prepare_subnet s = .ok ⟨s.azs, s.range, s.dns, g,
          s.ipnet.iter_hosts.erase g, s.ipnet, s.reserved, s.cloud_properties⟩) ∧
      (g ∉ s.ipnet.iter_hosts → prepare_subnet s = .error .valueError)) := by
  constructor
  · intro hg hl
    constructor
    · unfold prepare_subnet
      rw [iter_hosts_insertionSort, hg, hl]
    · have hs := iter_hosts_sorted s.ipnet
      rw [hl] at hs
      exact fun a ha => (List.pairwise_cons.mp hs).1 a ha
  · intro hg
    constructor
    · intro hmem
      unfold prepare_subnet
      rw [iter_hosts_insertionSort, hg]
      dsimp only
      rw [if_pos hmem]
    · intro hmem
      unfold prepare_subnet
      rw [iter_hosts_insertionSort, hg]
      dsimp only
      rw [if_neg hmem]

/-- C5 witness: the three gateway behaviours on the small block — derived
gateway 1 with pool 2..6, declared gateway 3 removed from the pool, and the
ValueError for the non-host declared gateway 9. -/
theorem prepare_subnet_gateway_selection_witness :
    prepare_subnet smallSpec = .ok smallPrepared ∧
    prepare_subnet gwSpec =
      .ok ⟨["z1"], "0.0.0.0/29", ["8.8.8.8"], 3, [1, 2, 4, 5, 6], smallNet, none, none⟩ ∧
    prepare_subnet badGwSpec = .error .valueError := by
  refine ⟨?_, ?_, ?_⟩
  · exact ((prepare_subnet_gateway_selection smallSpec 1 [2, 3, 4, 5, 6]).1 rfl rfl).1
  · exact ((prepare_subnet_gateway_selection gwSpec 3 []).2 rfl).1 (by decide)
  · exact ((prepare_subnet_gateway_selection badGwSpec 9 []).2 rfl).2 (by decide)

/-- C6: with `first` the smallest and `last` the largest popped address
(head and last of the popped ascending list), the computed `reserved`
sequence is exactly: a range from the block's first address to `first - 1`
when the block's first address is strictly below `first`, followed by a
range from `last + 1` to the block's last address when that is strictly
above `last`, and nothing else. -/
theorem build_subnet_reserved_gap_structure
    (x : PreparedSubnet) (net_size net_static : Nat) (out : Subnet)
    (x' : PreparedSubnet)
    (hsorted : List.Pairwise (· < ·) x.list)
    (h : build_subnet x net_size net_static = .ok (out, x')) :
    ∃ addresses first_address last_address,
      pull_out_addresses net_size x.list = .ok (addresses, x'.list) ∧
      addresses.head? = some first_address ∧
      addresses.getLast? = some last_address ∧
      (∀ a ∈ addresses, first_address ≤ a ∧ a ≤ last_address) ∧
      out.reserved =
        (if x.ip_network.first < first_address then
          [format_subnet_range x.ip_network.first (first_address - 1)]
        else []) ++
        (if x.ip_network.last > last_address then
          [format_subnet_range (last_address + 1) x.ip_network.last]
        else []) := by
  obtain ⟨addrs, fa, la, hp, hh, hl, _, _, _, _, _, _, _, _, _, _, _, hres, _, _⟩ :=
    build_subnet_ok_parts h
  obtain ⟨hle, hta, htd⟩ := pull_out_addresses_ok_inv hp
  have hsub : List.Pairwise (· < ·) addrs :=
    List.Pairwise.sublist (by rw [hta]; exact List.take_sublist _ _) hsorted
  refine ⟨addrs, fa, la, hp, hh, hl, ?_, hres⟩
  intro a ha
  exact ⟨head_le_of_pairwise_lt hsub hh ha, le_getLast_of_pairwise_lt hsub hl ha⟩

/-- C6 witness: the gap structure of the concrete size-2 allocation on the
small block (gaps 0-1 and 4-7 around the popped block 2-3). -/
theorem build_subnet_reserved_gap_structure_witness :
    List.Pairwise (· < ·) smallPrepared.list ∧
    smallOut.reserved = ["0.0.0.0 - 0.0.0.1", "0.0.0.4 - 0.0.0.7"] := by
  obtain ⟨addrs, fa, la, hp, hh, hl, hbound, hres⟩ :=
    build_subnet_reserved_gap_structure smallPrepared 2 1 smallOut
      smallPreparedAfter (by decide) rfl
  obtain ⟨hle, hta, htd⟩ := pull_out_addresses_ok_inv hp
  have haddr : addrs = [2, 3] := hta
  subst haddr
  have hfa : (2 : Nat) = fa := Option.some.inj hh
  have hla : (3 : Nat) = la := Option.some.inj hl
  subst hfa
  subst hla
  exact ⟨by decide, by rw [hres]; rfl⟩


/-- C9: for a request with positive `static`, the output static sequence is
the single range from `addresses[0]` to `addresses[static-1]`, and for
`static` = 0 it is empty; among the popped addresses, exactly the first
`static` of them (a prefix of the ascending allocated block) lie inside
that range. -/
theorem static_range_is_prefix_of_allocation
    (x : PreparedSubnet) (net_size net_static : Nat) (out : Subnet)
    (x' : PreparedSubnet) (addresses : List Nat)
    (first_address last_static : Nat)
    (hsorted : List.Pairwise (· < ·) x.list)
    (h : build_subnet x net_size net_static = .ok (out, x'))
    (hp : pull_out_addresses net_size x.list = .ok (addresses, x'.list))
    (hh : addresses.head? = some first_address)
    (hids : addresses.get? (net_static - 1) = some last_static) :
    out.static =
      (if 0 < net_static then [format_subnet_range first_address last_static]
       else []) ∧
    (0 < net_static → ∀ a ∈ addresses,
      ((first_address ≤ a ∧ a ≤ last_static) ↔ a ∈ addresses.take net_static)) := by
  obtain ⟨addrs, fa, la, hp2, hh2, hl2, _, _, _, _, _, _, _, _, _, _, _, _, hsp, hsz⟩ :=
    build_subnet_ok_parts h
  rw [hp] at hp2
  obtain ⟨haddr, -⟩ : addrs = addresses ∧ x'.list = x'.list := by
    have := Except.ok.inj hp2
    exact ⟨(Prod.mk.injEq _ _ _ _ ▸ this).1.symm, rfl⟩
  subst haddr
  have hfa : fa = first_address := by
    rw [hh] at hh2
    exact (Option.some.inj hh2).symm
  subst hfa
  obtain ⟨hle, hta, htd⟩ := pull_out_addresses_ok_inv hp
  have hsub : List.Pairwise (· < ·) addrs :=
    List.Pairwise.sublist (by rw [hta]; exact List.take_sublist _ _) hsorted
  have hmono := List.pairwise_iff_getElem.mp hsub
  obtain ⟨hltidx, hget⟩ := List.getElem?_eq_some_iff.mp
    (by rw [← List.get?_eq_getElem?]; exact hids)
  constructor
  · by_cases hpos : 0 < net_static
    · obtain ⟨ls, hls, hstat⟩ := hsp hpos
      rw [hids] at hls
      rw [if_pos hpos, hstat, Option.some.inj hls]
    · rw [if_neg hpos, hsz (by omega)]
  · intro hpos a ha
    obtain ⟨i, hi, rfl⟩ := List.mem_iff_getElem.mp ha
    constructor
    · rintro ⟨hfa2, hls2⟩
      by_cases hlt2 : i < net_static
      · have hi2 : i < (addrs.take net_static).length := by
          rw [List.length_take]
          omega
        have heq : (addrs.take net_static)[i] = addrs[i] := by
          rw [List.getElem_take]
        rw [← heq]
        exact List.getElem_mem hi2
      · exfalso
        have hlt3 : net_static - 1 < i := by omega
        have := hmono (net_static - 1) i hltidx hi hlt3
        rw [hget] at this
        omega
    · intro hmem
      refine ⟨head_le_of_pairwise_lt hsub hh (List.take_subset _ _ hmem), ?_⟩
      obtain ⟨j, hj, hjeq⟩ := List.mem_iff_getElem.mp hmem
      obtain ⟨hj2a, hj2b⟩ : j < net_static ∧ j < addrs.length := by
        rw [List.length_take] at hj
        omega
      have hjeq2 : addrs[j] = addrs[i] := by
        rw [← hjeq, List.getElem_take]
      rcases Nat.lt_or_ge j (net_static - 1) with hcase | hcase
      · have := hmono j (net_static - 1) hj2b hltidx hcase
        rw [hget, hjeq2] at this
        omega
      · have hjeq3 : j = net_static - 1 := by omega
        subst hjeq3
        rw [hget] at hjeq2
        omega

/-- C9 witness: the size-4, static-3 allocation on the small block; its
static range 2-4 covers, among the popped addresses, exactly the first 3 of
them. -/
theorem static_range_is_prefix_of_allocation_witness :
    build_subnet smallPrepared 4 3 = .ok (smallOut4, smallPreparedAfter4) ∧
    smallOut4.static = [format_subnet_range 2 4] ∧
    (((2:Nat) ≤ 3 ∧ (3:Nat) ≤ 4) ↔ (3:Nat) ∈ [2, 3, 4, 5].take 3) := by
  have h := static_range_is_prefix_of_allocation smallPrepared 4 3 smallOut4
    smallPreparedAfter4 [2, 3, 4, 5] 2 4 (by decide) rfl rfl rfl rfl
  refine ⟨rfl, ?_, ?_⟩
  · simpa using h.1
  · exact h.2 (by decide) 3 (by decide)


/-- C8: for two network requests A and B on the same subnet with A declared
first and the whole run succeeding, every address popped for A is
numerically smaller than every address popped for B, so no address popped
for A can ever be handed to B; the run's final pool is what remains after
both draws (draw-down is irreversible within the run). -/
theorem earlier_network_gets_smaller_addresses
    (p : PreparedSubnet) (A B : NetworkRequest)
    (nets : List Network) (ps : List PreparedSubnet)
    (asA restA asB restB : List Nat)
    (hsorted : List.Pairwise (· < ·) p.list)
    (hL : load_networks [A, B] [p] = .ok (nets, ps))
    (hpa : pull_out_addresses A.size p.list = .ok (asA, restA))
    (hpb : pull_out_addresses B.size restA = .ok (asB, restB)) :
    (∀ a ∈ asA, ∀ b ∈ asB, a < b) ∧ (∀ a ∈ asA, a ∉ asB) ∧
    ps.map (fun q => q.list) = [restB] := by
  obtain ⟨hleA, htaA, htdA⟩ := pull_out_addresses_ok_inv hpa
  obtain ⟨hleB, htaB, htdB⟩ := pull_out_addresses_ok_inv hpb
  have hcross : ∀ a ∈ asA, ∀ b ∈ asB, a < b := by
    have hap : List.Pairwise (· < ·) (p.list.take A.size ++ p.list.drop A.size) := by
      rw [List.take_append_drop]
      exact hsorted
    obtain ⟨-, -, hc⟩ := List.pairwise_append.mp hap
    intro a ha b hb
    refine hc a ?_ b ?_
    · rw [← htaA]
      exact ha
    · rw [← htdA]
      exact List.take_subset B.size restA (by rw [← htaB]; exact hb)
  refine ⟨hcross, ?_, ?_⟩
  · intro a ha hb
    exact absurd (hcross a ha a hb) (lt_irrefl a)
  · -- thread the pools through the run
    obtain ⟨outs1, ps1, nets1, hb1, hl1, hnets⟩ := load_networks_cons_ok hL
    obtain ⟨outA, pA, hbA, houts1, hps1⟩ := build_subnets_singleton_ok hb1
    subst hps1
    obtain ⟨outs2, ps2, nets2, hb2, hl2, hnets2⟩ := load_networks_cons_ok hl1
    obtain ⟨outB, pB, hbB, houts2, hps2⟩ := build_subnets_singleton_ok hb2
    subst hps2
    obtain ⟨hnil, hps⟩ := load_networks_nil_ok hl2
    obtain ⟨aA, fA, lA, hpA, _, _, _, _, _, _, _, _, _, _, _, _, _, _, _, _⟩ :=
      build_subnet_ok_parts hbA
    rw [hpa] at hpA
    have hinjA := Prod.mk.injEq .. ▸ Except.ok.inj hpA
    have hlistA : pA.list = restA := hinjA.2.symm
    obtain ⟨aB, fB, lB, hpB, _, _, _, _, _, _, _, _, _, _, _, _, _, _, _, _⟩ :=
      build_subnet_ok_parts hbB
    rw [hlistA, hpb] at hpB
    have hinjB := Prod.mk.injEq .. ▸ Except.ok.inj hpB
    have hlistB : pB.list = restB := hinjB.2.symm
    rw [hps]
    simp [hlistB]


/-- C8 witness: the concrete two-network run on the small block — network
"a" receives 2 and 3, network "b" receives 4 and 5, and the final pool is
[6]. -/
theorem earlier_network_gets_smaller_addresses_witness :
    ((2:Nat) < 4 ∧ (2:Nat) ∉ [4, 5]) ∧
    [smallPreparedAfter4].map (fun q => q.list) = [[6]] := by
  have h := earlier_network_gets_smaller_addresses smallPrepared
    ⟨"a", none, 2, 1⟩ ⟨"b", none, 2, 0⟩
    [⟨"a", "manual", [smallOut]⟩, ⟨"b", "manual", [smallOutB]⟩]
    [smallPreparedAfter4] [2, 3] [4, 5, 6] [4, 5] [6]
    (by decide) rfl rfl rfl
  exact ⟨⟨h.1 2 (by decide) 4 (by decide), h.2.1 2 (by decide)⟩, h.2.2⟩


/-- C3 counterexample (on the spec's own worked sample, subnet
192.168.123.0/24 with derived gateway and a first network of size 2): the
run's computed reserved ranges are the rendered intervals
[192.168.123.0, 192.168.123.1] and [192.168.123.4, 192.168.123.255]; the
gateway 192.168.123.1 (= 3232267009) lies inside the first reserved
interval, so it is counted both as {gateway} and inside a reserved range,
and the reserved ranges also contain 192.168.123.0 (= 3232267008), the
network address, which is not in the subnet's host range at all.  The
claimed disjoint union equal to exactly the host range therefore fails. -/
theorem gateway_counted_twice_in_sample_run :
    ((prepare_subnet plainSampleSpec).map (fun p => p.gateway)) =
      Except.ok 3232267009 ∧
    ((prepare_subnet plainSampleSpec).bind (fun p =>
      (build_subnet p 2 1).map (fun r => r.1.reserved))) =
      Except.ok ((gap_intervals 3232267008 3232267263 3232267010 3232267011).map
        (fun g => format_subnet_range g.1 g.2)) ∧
    in_gap_list (gap_intervals 3232267008 3232267263 3232267010 3232267011)
      3232267009 ∧
    in_gap_list (gap_intervals 3232267008 3232267263 3232267010 3232267011)
      3232267008 ∧
    3232267008 ∉ sampleNet.iter_hosts := by
  refine ⟨rfl, rfl, by decide, by decide, by decide⟩

/-- C3 amended: per network allocation whose popped block is a contiguous
interval, the popped addresses and the gap-derived reserved intervals are
disjoint and tile exactly the subnet's full CIDR block (network and
broadcast addresses included) — not the host range; the gateway is not a
separate disjoint part (when it precedes the block it lies inside a
reserved interval), and each network's reserved ranges are computed only
against its own block, so across several networks they overlap other
networks' allocations. -/
theorem allocation_and_gaps_tile_full_block
    (x : PreparedSubnet) (net_size net_static : Nat) (out : Subnet)
    (x' : PreparedSubnet) (addresses : List Nat)
    (first_address last_address : Nat)
    (h : build_subnet x net_size net_static = .ok (out, x'))
    (hp : pull_out_addresses net_size x.list = .ok (addresses, x'.list))
    (hh : addresses.head? = some first_address)
    (hl : addresses.getLast? = some last_address)
    (hcontig : ∀ a, a ∈ addresses ↔ (first_address ≤ a ∧ a ≤ last_address))
    (hlow : x.ip_network.first ≤ first_address)
    (hhigh : last_address ≤ x.ip_network.last) :
    out.reserved =
      (gap_intervals x.ip_network.first x.ip_network.last first_address
        last_address).map (fun g => format_subnet_range g.1 g.2) ∧
    (∀ a, (x.ip_network.first ≤ a ∧ a ≤ x.ip_network.last) ↔
      (a ∈ addresses ∨ in_gap_list (gap_intervals x.ip_network.first
        x.ip_network.last first_address last_address) a)) ∧
    (∀ a, ¬ (a ∈ addresses ∧ in_gap_list (gap_intervals x.ip_network.first
        x.ip_network.last first_address last_address) a)) := by
  have hfl : first_address ≤ last_address :=
    ((hcontig first_address).mp (List.mem_of_mem_head? (by rw [hh]; rfl))).2
  obtain ⟨addrs, fa, la, hp2, hh2, hl2, _, _, _, _, _, _, _, _, _, _, _, hres, _, _⟩ :=
    build_subnet_ok_parts h
  rw [hp] at hp2
  have haddr : addresses = addrs := (Prod.mk.injEq .. ▸ Except.ok.inj hp2).1
  subst haddr
  rw [hh] at hh2
  obtain rfl : first_address = fa := Option.some.inj hh2
  rw [hl] at hl2
  obtain rfl : last_address = la := Option.some.inj hl2
  refine ⟨?_, ?_, ?_⟩
  · rw [hres]
    unfold gap_intervals
    by_cases h1 : x.ip_network.first < first_address <;>
      by_cases h2 : x.ip_network.last > last_address <;>
      simp [h1, h2]
  · intro a
    rw [hcontig a]
    by_cases h1 : x.ip_network.first < first_address <;>
      by_cases h2 : x.ip_network.last > last_address <;>
      simp [in_gap_list, gap_intervals, h1, h2] <;>
      omega
  · intro a
    rintro ⟨hmem, hgap⟩
    rw [hcontig a] at hmem
    by_cases h1 : x.ip_network.first < first_address <;>
      by_cases h2 : x.ip_network.last > last_address <;>
      simp [in_gap_list, gap_intervals, h1, h2] at hgap <;>
      omega

/-- C3 amended witness: the size-2 allocation on the small block tiles
addresses 0..7: popped [2, 3] plus the gap intervals [0, 1] and [4, 7]. -/
theorem allocation_and_gaps_tile_full_block_witness :
    build_subnet smallPrepared 2 1 = .ok (smallOut, smallPreparedAfter) ∧
    smallOut.reserved = (gap_intervals 0 7 2 3).map
      (fun g => format_subnet_range g.1 g.2) ∧
    (((0:Nat) ≤ 5 ∧ (5:Nat) ≤ 7) ↔
      ((5:Nat) ∈ [2, 3] ∨ in_gap_list (gap_intervals 0 7 2 3) 5)) ∧
    ¬ ((3:Nat) ∈ [2, 3] ∧ in_gap_list (gap_intervals 0 7 2 3) 3) := by
  have h := allocation_and_gaps_tile_full_block smallPrepared 2 1 smallOut
    smallPreparedAfter [2, 3] 2 3 rfl rfl rfl rfl
    (by intro a; simp; omega) (by decide) (by decide)
  exact ⟨rfl, h.1, h.2.1 5, h.2.2 3⟩
